import Mathlib

/-!
Verification development for the f1rstaid repository.

The Python sources are shallowly embedded on `List Char`:
strings become `List Char`, Python's `str.replace`, `str.count`,
`str.strip`, `str.lower`, `in` (substring test) and `startswith`
become the executable functions below, and library calls with
external effects (HTTP fetches, the FAISS store, the LLM chains)
become explicit oracle parameters.  The embedding is ASCII-faithful:
`Char.toLower` / `Char.isAlpha` agree with Python's `str.lower` /
`str.isalpha` on ASCII text, which covers every string the claims
mention.
-/

set_option maxRecDepth 1000000

namespace F1rstAid

/-- Whitespace characters stripped by Python's `str.strip()` (ASCII range). -/
def pyIsSpace (c : Char) : Bool :=
  c = ' ' ∨ c = '\t' ∨ c = '\n' ∨ c = '\r' ∨ c = '\x0b' ∨ c = '\x0c'

/-- Python `str.strip()`: drop leading and trailing whitespace. -/
def pyStrip (s : List Char) : List Char :=
  ((s.dropWhile pyIsSpace).reverse.dropWhile pyIsSpace).reverse

/-- Python `str.lower()` restricted to ASCII. -/
def toLowerL (s : List Char) : List Char :=
  s.map Char.toLower

/-- Fuel-driven worker for Python's `str.replace`: scan left to right,
replace each non-overlapping occurrence of `pat` by `rep` and continue
after the replaced text.  The fuel only bounds the recursion depth; one
unit is spent per emitted character or match, so any fuel of at least
the input length computes the replacement (`replaceGo_congr`). -/
def replaceGo (pat rep : List Char) : Nat → List Char → List Char
  | _, [] => []
  | 0, s => s
  | fuel + 1, c :: rest =>
    if pat ≠ [] ∧ pat <+: (c :: rest) then
      rep ++ replaceGo pat rep fuel ((c :: rest).drop pat.length)
    else
      c :: replaceGo pat rep fuel rest

/-- Python `str.replace(pat, rep)` for a nonempty pattern.  (For
`pat = []` this is the identity; every pattern used by the repository
is nonempty.) -/
def replaceL (pat rep s : List Char) : List Char :=
  replaceGo pat rep s.length s

/-- Fuel-driven worker for Python's `str.count`, with the same fuel
discipline as `replaceGo`. -/
def countGo (pat : List Char) : Nat → List Char → Nat
  | _, [] => 0
  | 0, _ => 0
  | fuel + 1, c :: rest =>
    if pat ≠ [] ∧ pat <+: (c :: rest) then
      1 + countGo pat fuel ((c :: rest).drop pat.length)
    else
      countGo pat fuel rest

/-- Python `str.count(pat)` for a nonempty pattern: number of
non-overlapping occurrences, scanning left to right. -/
def countOcc (pat s : List Char) : Nat :=
  countGo pat s.length s

/-- Python substring test `pat in s`, as a Bool. -/
def containsL (pat s : List Char) : Bool :=
  decide (pat <:+: s)

/-!
Model of `urllib.parse.urlparse` restricted to the fields the sources
read (`scheme`, `netloc`, `path`), for URLs without `;`-parameters:
the scheme is the lower-cased alphanumeric run before a `:` (when one
is present), `//` introduces the netloc which extends to the next
`/`, `?` or `#`, and the path extends from there to the next `?` or `#`.
-/

/-- Characters allowed in a URL scheme (`urllib.parse.scheme_chars`). -/
def schemeChar (c : Char) : Bool :=
  c.isAlpha ∨ c.isDigit ∨ c = '+' ∨ c = '-' ∨ c = '.'

/-- Split off the scheme: returns `(scheme, rest)`. -/
def splitScheme (url : List Char) : List Char × List Char :=
  let pre := url.takeWhile (fun c => c ≠ ':')
  if pre.length < url.length ∧ pre ≠ [] ∧ pre.all schemeChar then
    (toLowerL pre, url.drop (pre.length + 1))
  else
    ([], url)

/-- Split off the netloc after a leading `//`: returns `(netloc, rest)`. -/
def splitNetloc (rest : List Char) : List Char × List Char :=
  match rest with
  | '/' :: '/' :: r =>
    let net := r.takeWhile (fun c => c ≠ '/' ∧ c ≠ '?' ∧ c ≠ '#')
    (net, r.drop net.length)
  | r => ([], r)

/-- The `scheme` component of `urlparse(url)`. -/
def urlScheme (url : List Char) : List Char :=
  (splitScheme url).1

/-- The `netloc` component of `urlparse(url)`. -/
def urlNetloc (url : List Char) : List Char :=
  (splitNetloc (splitScheme url).2).1

/-- The `path` component of `urlparse(url)` (query and fragment cut off). -/
def urlPath (url : List Char) : List Char :=
  ((splitNetloc (splitScheme url).2).2).takeWhile (fun c => c ≠ '?' ∧ c ≠ '#')

/-!
Embedding of `src/crawler/crawler.py`: `is_allowed` (robots.txt prefix
matching) and `is_relevant` (weighted keyword scoring).
-/

/-- Positive keywords with weights, from `is_relevant` in `crawler.py`. -/
def positive_keywords : List (List Char × Int) :=
  [("cpt".toList, 5),
   ("opt".toList, 5),
   ("curricular practical training".toList, 4),
   ("optional practical training".toList, 4),
   ("work authorization".toList, 3),
   ("employment authorization".toList, 3),
   ("internship".toList, 2),
   ("practical training".toList, 3)]

/-- Negative keywords with weights, from `is_relevant` in `crawler.py`. -/
def negative_keywords : List (List Char × Int) :=
  [("international student".toList, 2),
   ("immigration".toList, 2),
   ("global affairs".toList, 2),
   ("study abroad".toList, 2),
   ("university homepage".toList, 2),
   ("contact us".toList, 2)]

/-- The score accumulated by `is_relevant`: over the lower-cased text,
add `weight * occurrences` for each positive keyword, then subtract
`weight * occurrences` for each negative keyword. -/
def relevance_score (content : List Char) : Int :=
  let text := toLowerL content
  let pos := positive_keywords.foldl
    (fun sc kw => sc + kw.2 * (countOcc kw.1 text : Int)) 0
  negative_keywords.foldl
    (fun sc kw => sc - kw.2 * (countOcc kw.1 text : Int)) pos

/-- The function `is_relevant(content)` of `crawler.py`: the page is relevant
iff the weighted score reaches the threshold 20. -/
def is_relevant (content : List Char) : Bool :=
  decide (20 ≤ relevance_score content)

/-- The function `is_allowed(url, disallowed, allowed)` of `crawler.py`: a
nonempty allowed path that is a prefix of the URL path wins; otherwise a
nonempty disallowed prefix rejects; otherwise the URL is allowed.  The
Python early-return loops are rendered with `List.any`. -/
def is_allowed (url : List Char) (disallowed allowed : List (List Char)) : Bool :=
  let path := urlPath url
  if allowed.any (fun a => decide (a ≠ [] ∧ a <+: path)) then true
  else if disallowed.any (fun d => decide (d ≠ [] ∧ d <+: path)) then false
  else true

/-!
Embedding of `src/ingest.py`: langchain `Document`s (pydantic models,
whose `==` is structural equality on all fields), `preprocess_text`
and `validate_content` of `ContentProcessor`.
-/

/-- A langchain `Document`: page content plus metadata (a string-valued
dict, rendered as an association list).  Pydantic equality of documents
is structural, matching the derived `DecidableEq`. -/
structure Document where
  page_content : List Char
  metadata : List (String × String)
deriving DecidableEq, Repr

/-- Python `doc.metadata.get(key, default)`. -/
def metaGet (doc : Document) (key dflt : String) : String :=
  match doc.metadata.find? (fun kv => kv.1 == key) with
  | some kv => kv.2
  | none => dflt

/-- The replacement table of `ContentProcessor.preprocess_text`, in the
insertion order of the Python dict. -/
def replacements : List (List Char × List Char) :=
  [("F student".toList, "F-1 student".toList),
   ("F Students".toList, "F-1 Students".toList),
   ("F visa".toList, "F-1 visa".toList),
   ("OPT ".toList, "Optional Practical Training (OPT) ".toList)]

/-- The function `ContentProcessor.preprocess_text`: apply the literal
replacements in table order.  (The `lru_cache` decorator only memoises
this pure function and has no semantic effect.) -/
def preprocess_text (text : List Char) : List Char :=
  replacements.foldl (fun t pr => replaceL pr.1 pr.2 t) text

/-- Boilerplate markers rejected for web documents in `validate_content`. -/
def boilerplate_terms : List (List Char) :=
  ["[advertisement]".toList, "cookie".toList, "privacy policy".toList]

/-- The function `ContentProcessor.validate_content`: reject when the
stripped content is empty, shorter than 50 characters or has no
alphabetic character; additionally reject web documents whose
lower-cased content contains a boilerplate marker. -/
def validate_content (doc : Document) : Bool :=
  let content := pyStrip doc.page_content
  let source_type := metaGet doc "type" "unknown"
  if content = [] ∨ content.length < 50 ∨ ¬ content.any Char.isAlpha then
    false
  else if source_type = "web" ∧
      boilerplate_terms.any (fun t => containsL t (toLowerL content)) then
    false
  else
    true

/-!
Embedding of `src/validate_index.py`: `validate_results` and the query
loop of `test_vector_store`.
-/

/-- Failure message `f"Result too short ({n} chars) for query: {query}"`. -/
def tooShortMsg (n : Nat) (query : List Char) : List Char :=
  "Result too short (".toList ++ (toString n).toList
    ++ " chars) for query: ".toList ++ query

/-- Failure message `f"Duplicate results found for query: {query}"`. -/
def dupMsg (query : List Char) : List Char :=
  "Duplicate results found for query: ".toList ++ query

/-- Failure message `f"No meaningful text found in result for query: {query}"`. -/
def noMeaningMsg (query : List Char) : List Char :=
  "No meaningful text found in result for query: ".toList ++ query

/-- The per-document checks of `validate_results`, in source order:
minimum length, duplicate content against a *distinct* document
(`r != doc` is pydantic structural inequality), meaningful text.
Returns the first failure message, if any. -/
def checkDoc (results : List Document) (query : List Char) (doc : Document) :
    Option (List Char) :=
  let content := pyStrip doc.page_content
  if content.length < 50 then
    some (tooShortMsg content.length query)
  else if results.any (fun r => decide (r ≠ doc ∧ r.page_content = doc.page_content)) then
    some (dupMsg query)
  else if ¬ content.any Char.isAlpha then
    some (noMeaningMsg query)
  else
    none

/-- The function `validate_results(results, query)`: empty result lists
fail; otherwise the first failing check of the first failing document
is reported; otherwise success. -/
def validate_results (results : List Document) (query : List Char) :
    Bool × List Char :=
  if results = [] then
    (false, "No results returned".toList)
  else
    match results.findSome? (checkDoc results query) with
    | some msg => (false, msg)
    | none => (true, "Results validated successfully".toList)

/-- The fixed query battery of `test_vector_store`. -/
def testQueries : List (List Char) :=
  [("If my OPT is pending, can I travel internationally without risk of denial upon re-entry?").toList,
   ("How many unemployment days can I accrue during the initial 12-month OPT period and the STEM extension?").toList,
   ("Is unpaid volunteer work considered valid employment for OPT status maintenance?").toList,
   ("Can I apply for STEM OPT extension after completing CPT during my master\x27s program?").toList,
   ("If I used CPT for more than 12 months, does it disqualify me from OPT eligibility?").toList,
   ("Does USCIS or SEVP allow multiple CPT employers simultaneously?").toList,
   ("Is it legal to start working under CPT authorization before receiving the updated I-20?").toList,
   ("Can I work remotely from outside the U.S. during CPT without violating F-1 status?").toList,
   ("What are the specific reporting obligations during STEM OPT, and how frequently must I update SEVIS?").toList,
   ("If my employer’s E-Verify account expires, how does that impact my STEM OPT status?").toList,
   ("Can I change employers while my STEM OPT extension application is pending approval?").toList,
   ("What documents are mandatory for re-entry to the U.S. if traveling during approved OPT or STEM OPT?").toList,
   ("Can I renew my expired F-1 visa while on OPT if my OPT authorization is active but my course completion date has passed?").toList,
   ("Can I use Day 1 CPT during a second master\x27s degree after previously utilizing my entire OPT/STEM OPT period?").toList,
   ("If USCIS rejects my OPT application due to a payment error, can I reapply after my program completion date?").toList]

/-- The query loop of `test_vector_store`, over a `similarity_search`
oracle.  The Bool mirrors the Python return value (`return False` at the
first invalid query, `return True` after the loop); the list records
which queries were actually validated, instrumenting the run for the
run-termination property (it has no counterpart in the code). -/
def tvsLoop (search : List Char → List Document) :
    List (List Char) → Bool × List (List Char)
  | [] => (true, [])
  | q :: qs =>
    if (validate_results (search q) q).1 then
      let r := tvsLoop search qs
      (r.1, q :: r.2)
    else
      (false, [q])

/-- The function `test_vector_store`, with the environment check and the
FAISS loading abstracted into the `search` oracle. -/
def test_vector_store (search : List Char → List Document) :
    Bool × List (List Char) :=
  tvsLoop search testQueries

/-!
Embedding of the per-seed crawl loop of `crawler.py` (`while to_visit:`,
lines 261-331) as a deterministic transition system.  The network is an
oracle: `fetch url = none` models a request exception, a non-200 status
or the PythonAnywhere block (all of which `continue` with the URL
already marked visited), `fetch url = some (content, links)` models a
successful fetch where `content` is the output of
`extract_main_content` and `links` are the `urljoin`-resolved hrefs of
the page in document order.  `visited` and `relevant_urls` are Python
sets, rendered as duplicate-free lists; `writes` records every
`save_checkpoint` call (the serialized full state), instrumenting the
file writes for the checkpointing property.
-/

/-- Environment of one per-seed crawl: the seed URL, the parsed
robots.txt lists, and the network oracle. -/
structure CrawlEnv where
  base : List Char
  disallowed : List (List Char)
  allowed : List (List Char)
  fetch : List Char → Option (List Char × List (List Char))

/-- State of the crawl loop: the Python variables `visited`, `to_visit`,
`relevant_urls`, `batch_counter`, plus the log of checkpoint writes. -/
structure CrawlState where
  visited : List (List Char)
  to_visit : List (List Char)
  relevant_urls : List (List Char)
  batch_counter : Nat
  writes : List (List (List Char) × List (List Char) × List (List Char))
deriving DecidableEq, Repr

/-- The full per-domain state serialized by `save_checkpoint`. -/
def snapshot (s : CrawlState) :
    List (List Char) × List (List Char) × List (List Char) :=
  (s.visited, s.to_visit, s.relevant_urls)

/-- The link filter of lines 305-314: http(s) scheme, the seed's domain
occurs in the link's netloc (Python `domain in parsed_link.netloc` is a
substring test), robots.txt allows it, and it is not yet visited. -/
def linkOk (env : CrawlEnv) (visited : List (List Char)) (l : List Char) : Bool :=
  decide ((urlScheme l = "http".toList ∨ urlScheme l = "https".toList) ∧
    urlNetloc env.base <:+: urlNetloc l ∧
    is_allowed l env.disallowed env.allowed = true ∧
    l ∉ visited)

/-- One iteration of the `while to_visit:` loop (only meaningful when
`to_visit` is nonempty): pop the head; skip it if visited or disallowed;
otherwise mark it visited, fetch it, score it, append the filtered links
to the frontier, and save a checkpoint when 10 new relevant URLs have
accumulated. -/
def crawl_step (env : CrawlEnv) (s : CrawlState) : CrawlState :=
  match s.to_visit with
  | [] => s
  | url :: rest =>
    if url ∈ s.visited then
      { s with to_visit := rest }
    else if ¬ is_allowed url env.disallowed env.allowed then
      { s with to_visit := rest }
    else
      let visited' := url :: s.visited
      match env.fetch url with
      | none => { s with visited := visited', to_visit := rest }
      | some (content, links) =>
        let foundNew : Prop := is_relevant content = true ∧ url ∉ s.relevant_urls
        let relevant' := if foundNew then url :: s.relevant_urls else s.relevant_urls
        let batch' := if foundNew then s.batch_counter + 1 else s.batch_counter
        let to_visit' := rest ++ links.filter (linkOk env visited')
        if 10 ≤ batch' then
          { visited := visited', to_visit := to_visit', relevant_urls := relevant',
            batch_counter := 0,
            writes := s.writes ++ [(visited', to_visit', relevant')] }
        else
          { visited := visited', to_visit := to_visit', relevant_urls := relevant',
            batch_counter := batch', writes := s.writes }

/-- The fresh initial state set up in lines 218-228 for one seed. -/
def initState (env : CrawlEnv) : CrawlState :=
  { visited := [], to_visit := [env.base], relevant_urls := [],
    batch_counter := 0, writes := [] }

/-- The final `save_checkpoint` after the loop exits (lines 328-331). -/
def crawl_finish (s : CrawlState) : CrawlState :=
  { s with writes := s.writes ++ [snapshot s] }

/-- States reachable by the crawl loop from the fresh initial state. -/
inductive Reachable (env : CrawlEnv) : CrawlState → Prop
  | init : Reachable env (initState env)
  | step {s : CrawlState} : Reachable env s → s.to_visit ≠ [] →
      Reachable env (crawl_step env s)

/-!
Embedding of `src/f1rstaid.py`: the canned help entries and
`F1rstAidApp.get_answer` with its layered exception handling.  The two
LLM stages are oracles returning `Except`: `relevance_llm` models the
`try` block of `_is_relevant_question` (the `ChatOpenAI`/`LLMChain`
call together with the response parsing, returning the relevance flag
and the combined reason/guidance explanation), `qa_invoke` models
`self.qa_chain.invoke`; `Except.error` models a raised exception.
-/

/-- An entry of `AppConfig.GENERIC_HELP_QUESTIONS`. -/
structure HelpEntry where
  response : List Char
  triggers : List (List Char)

/-- The `"help"` entry. -/
def helpEntry : HelpEntry :=
  { response :=
      ("\nHello! I\x27m F1rstAid, your virtual assistant for F-1 visa questions.\n📚 **My Expertise**:\n\nI specialize in F-1 visa regulations including:\n- OPT/CPT requirements and applications\n- STEM OPT extensions (Form I-983)\n- Employment authorization documents (Form I-765)\n- Maintaining visa status\n- Travel restrictions and re-entry requirements\n\nAsk me specific questions like:\n- \x27How long does OPT processing take after submitting Form I-765?\x27\n- \x27What are the CPT requirements for summer internships?\x27\n                ").toList,
    triggers :=
      [("what can you do").toList, ("how to use").toList, ("help").toList,
       ("expertise").toList, ("what do i ask you").toList,
       ("what\x27s your name").toList] }

/-- The `"question_guidance"` entry. -/
def guidanceEntry : HelpEntry :=
  { response :=
      ("\n🔍 **How to Ask Effective Questions**:\n\n\n1. Include specific terms: \x27OPT\x27, \x27CPT\x27, \x27I-765\x27, \x27I-983\x27\n\n2. Mention your situation: \x27After H1B denial...\x27, \x27As a STEM student...\x27\n\n3. Ask about timelines: \x27How long...\x27, \x27Processing time for...\x27\n\n4. Request form guidance: \x27Section 5 of I-983...\x27\n\n\nExample: \x27What documents do I need for STEM OPT extension?\x27\n\n                ").toList,
    triggers :=
      [("ask a question").toList, ("formulate").toList,
       ("effective questions").toList, ("how to ask you").toList] }

/-- `GENERIC_HELP_QUESTIONS.items()`, in dict insertion order. -/
def helpEntries : List HelpEntry :=
  [helpEntry, guidanceEntry]

/-- Python `any(trigger in clean_q for trigger in entry["triggers"])`. -/
def triggered (clean_q : List Char) (e : HelpEntry) : Bool :=
  e.triggers.any (fun t => containsL t clean_q)

/-- The dict returned by `get_answer`. -/
structure Answer where
  result : List Char
  source_documents : List Document
deriving DecidableEq, Repr

/-- Oracles for the two LLM stages of the QA app. -/
structure QAEnv where
  relevance_llm : List Char → Except Unit (Bool × List Char)
  qa_invoke : List Char → Except Unit Answer

/-- The method `_is_relevant_question`: canned-help triggers first, then
the LLM relevance check whose exceptions are caught *locally* and turned
into a not-relevant verdict with its own error explanation. -/
def is_relevant_question (env : QAEnv) (question : List Char) :
    Bool × List Char :=
  let clean_q := toLowerL (pyStrip question)
  if helpEntries.any (triggered clean_q) then
    (true, ("Help question detected").toList)
  else
    match env.relevance_llm question with
    | Except.ok rg => rg
    | Except.error _ => (false, ("Error analyzing question. Please try again.").toList)

/-- The response for empty questions. -/
def emptyQuestionMsg : List Char :=
  ("Please enter a question about F-1 visas, OPT, or CPT.").toList

/-- The message produced by `get_answer`'s top-level `except` handler. -/
def genericErrorMsg : List Char :=
  ("Error processing request. Please try again.").toList

/-- The f-string block returned for questions judged not relevant. -/
def relevanceBlock (explanation : List Char) : List Char :=
  ("\n🚦 **Relevance Check**\n\n").toList ++ explanation ++
    ("\n\n💡 **Ask About**:\n- OPT/CPT eligibility\n- Form I-765 processing\n- Maintaining F-1 status\n- STEM OPT requirements\n- Travel signatures").toList

/-- The `try` body of `get_answer`: empty-question shortcut, canned-help
match, relevance gate, then the QA chain; only an exception of the QA
chain escapes (the relevance stage catches its own). -/
def get_answer_body (env : QAEnv) (question : List Char) : Except Unit Answer :=
  if pyStrip question = [] then
    Except.ok ⟨emptyQuestionMsg, []⟩
  else
    let clean_q := toLowerL (pyStrip question)
    match helpEntries.find? (triggered clean_q) with
    | some e => Except.ok ⟨e.response, []⟩
    | none =>
      let rel := is_relevant_question env question
      if rel.1 = false then
        Except.ok ⟨relevanceBlock rel.2, []⟩
      else
        match env.qa_invoke question with
        | Except.ok a => Except.ok a
        | Except.error e => Except.error e

/-- The method `F1rstAidApp.get_answer`: the `try` body with the
top-level `except` handler converting any escaped exception into the
generic error answer. -/
def get_answer (env : QAEnv) (question : List Char) : Answer :=
  match get_answer_body env question with
  | Except.ok a => a
  | Except.error _ => ⟨genericErrorMsg, []⟩

/-!
Side conditions for the replacement lemmas: `noSpanL pat rep` states
that no nonempty proper prefix of `pat` is a suffix of `rep` (no
occurrence of `pat` can start inside an inserted `rep` and continue
past it), and `noSpanR pat rep` states that no nonempty proper suffix
of `pat` is a prefix of `rep` (no occurrence can enter an inserted
`rep` from the left).  Both are decidable bounded quantifications.
-/

/-- No nonempty proper prefix of `pat` is a suffix of `rep`. -/
def noSpanL (pat rep : List Char) : Prop :=
  ∀ i < pat.length, 0 < i → ¬ pat.take i <:+ rep

/-- No nonempty proper suffix of `pat` is a prefix of `rep`. -/
def noSpanR (pat rep : List Char) : Prop :=
  ∀ i < pat.length, 0 < i → ¬ pat.drop i <+: rep

instance (pat rep : List Char) : Decidable (noSpanL pat rep) :=
  inferInstanceAs (Decidable (∀ i < pat.length, 0 < i → ¬ pat.take i <:+ rep))

instance (pat rep : List Char) : Decidable (noSpanR pat rep) :=
  inferInstanceAs (Decidable (∀ i < pat.length, 0 < i → ¬ pat.drop i <+: rep))

/-!
Concrete fixtures used by counterexamples and witnesses.
-/

/-- The mock document with content `"Hi"` from the spec's example. -/
def hiDoc : Document :=
  { page_content := ("Hi").toList, metadata := [("type", "pdf")] }

/-- The first mock document of `tests/conftest.py`
(content of length 48). -/
def enrollDoc : Document :=
  { page_content := ("F-1 students must maintain full-time enrollment.").toList,
    metadata := [("source", "test.pdf"), ("type", "pdf")] }

/-- A web document whose content has the word `advertisement` without
the brackets the code actually checks for. -/
def advWordDoc : Document :=
  { page_content :=
      ("This advertisement page explains the F-1 visa regulations in detail.").toList,
    metadata := [("type", "web")] }

/-- A web document whose content has the bracketed `[advertisement]`
marker. -/
def advMarkerDoc : Document :=
  { page_content :=
      ("This [advertisement] block repeats across every page of the site.").toList,
    metadata := [("type", "web")] }

/-- A valid document (stripped length at least 50, alphabetic). -/
def okDoc : Document :=
  { page_content :=
      ("OPT allows F-1 students to work for twelve months after graduation.").toList,
    metadata := [("source", "test.pdf"), ("type", "pdf")] }

/-- Crawl environment for the frontier counterexample: the seed page
links to the same in-domain URL twice. -/
def envDupLink : CrawlEnv :=
  { base := ("https://e.com/").toList, disallowed := [], allowed := [],
    fetch := fun u =>
      if u = ("https://e.com/").toList then
        some (("x").toList,
          [("https://e.com/b").toList, ("https://e.com/b").toList])
      else if u = ("https://e.com/b").toList then
        some (("x").toList, [])
      else none }

/-- Crawl environment whose seed page is relevant (score 20). -/
def envRelPage : CrawlEnv :=
  { base := ("https://e.com/").toList, disallowed := [], allowed := [],
    fetch := fun _ => some (("cpt cpt cpt cpt").toList, []) }

/-- QA environment whose LLM relevance stage raises an exception. -/
def envRelErr : QAEnv :=
  { relevance_llm := fun _ => Except.error (),
    qa_invoke := fun _ => Except.ok ⟨[], []⟩ }

/-- QA environment whose relevance stage succeeds (relevant) and whose
QA chain raises an exception. -/
def envQaErr : QAEnv :=
  { relevance_llm := fun _ => Except.ok (true, ("ok").toList),
    qa_invoke := fun _ => Except.error () }

/-!
Helper lemmas.
-/

/-- Value of `relevance_score` when all keyword counts are known:
`a` occurrences of `cpt`, `b` of `internship`, none of any other
positive or negative keyword. -/
theorem relevance_score_of_counts (text : List Char) (a b : Nat)
    (hcpt : countOcc (("cpt").toList) (toLowerL text) = a)
    (hint : countOcc (("internship").toList) (toLowerL text) = b)
    (hpos : ∀ kw ∈ positive_keywords, kw.1 ≠ ("cpt").toList →
      kw.1 ≠ ("internship").toList → countOcc kw.1 (toLowerL text) = 0)
    (hneg : ∀ kw ∈ negative_keywords, countOcc kw.1 (toLowerL text) = 0) :
    relevance_score text = 5 * a + 2 * b := by
  have h1 := hpos (("opt").toList, 5) (by decide) (by decide) (by decide)
  have h2 := hpos (("curricular practical training").toList, 4)
    (by decide) (by decide) (by decide)
  have h3 := hpos (("optional practical training").toList, 4)
    (by decide) (by decide) (by decide)
  have h4 := hpos (("work authorization").toList, 3) (by decide) (by decide) (by decide)
  have h5 := hpos (("employment authorization").toList, 3)
    (by decide) (by decide) (by decide)
  have h6 := hpos (("practical training").toList, 3) (by decide) (by decide) (by decide)
  have n1 := hneg (("international student").toList, 2) (by decide)
  have n2 := hneg (("immigration").toList, 2) (by decide)
  have n3 := hneg (("global affairs").toList, 2) (by decide)
  have n4 := hneg (("study abroad").toList, 2) (by decide)
  have n5 := hneg (("university homepage").toList, 2) (by decide)
  have n6 := hneg (("contact us").toList, 2) (by decide)
  simp only [relevance_score, positive_keywords, negative_keywords,
    List.foldl_cons, List.foldl_nil]
  rw [hcpt, hint, h1, h2, h3, h4, h5, h6, n1, n2, n3, n4, n5, n6]
  push_cast
  ring

/-!
Claim theorems.
-/

/-- C2: `validate_content` rejects every document whose stripped content
is shorter than 50 characters, in particular the `"Hi"` document; the
48-character test document `"F-1 students must maintain full-time
enrollment."` is therefore rejected as well, although the repository's
own test `test_content_validation` asserts it is accepted (code bug:
code contradicts its test). -/
theorem C2_validate_content_length_gate :
    (∀ doc : Document, (pyStrip doc.page_content).length < 50 →
      validate_content doc = false) ∧
    validate_content hiDoc = false ∧
    validate_content enrollDoc = false ∧
    (pyStrip enrollDoc.page_content).length = 48 := by
  refine ⟨?_, by decide, by decide, by decide⟩
  intro doc h
  simp only [validate_content]
  rw [if_pos (Or.inr (Or.inl h))]

/-- Witness for C2: the length gate applied to the `"Hi"` document. -/
theorem C2_witness :
    (pyStrip hiDoc.page_content).length < 50 ∧ validate_content hiDoc = false :=
  ⟨by decide, C2_validate_content_length_gate.1 hiDoc (by decide)⟩

/-- C3: weighted keyword scoring.  Three `cpt` (weight 5) plus one
`internship` (weight 2) and no other keyword score 17, below the
inclusive threshold 20, hence not relevant; a fourth `cpt` scores 22,
hence relevant; any text scoring exactly 20 is relevant. -/
theorem C3_keyword_scoring :
    (∀ text : List Char,
        countOcc (("cpt").toList) (toLowerL text) = 3 →
        countOcc (("internship").toList) (toLowerL text) = 1 →
        (∀ kw ∈ positive_keywords, kw.1 ≠ ("cpt").toList →
          kw.1 ≠ ("internship").toList → countOcc kw.1 (toLowerL text) = 0) →
        (∀ kw ∈ negative_keywords, countOcc kw.1 (toLowerL text) = 0) →
        relevance_score text = 17 ∧ is_relevant text = false) ∧
    (∀ text : List Char,
        countOcc (("cpt").toList) (toLowerL text) = 4 →
        countOcc (("internship").toList) (toLowerL text) = 1 →
        (∀ kw ∈ positive_keywords, kw.1 ≠ ("cpt").toList →
          kw.1 ≠ ("internship").toList → countOcc kw.1 (toLowerL text) = 0) →
        (∀ kw ∈ negative_keywords, countOcc kw.1 (toLowerL text) = 0) →
        relevance_score text = 22 ∧ is_relevant text = true) ∧
    (∀ text : List Char, relevance_score text = 20 → is_relevant text = true) := by
  refine ⟨?_, ?_, ?_⟩
  · intro text hcpt hint hpos hneg
    have hs : relevance_score text = 17 := by
      rw [relevance_score_of_counts text 3 1 hcpt hint hpos hneg]
      norm_num
    refine ⟨hs, ?_⟩
    simp only [is_relevant, hs]
    decide
  · intro text hcpt hint hpos hneg
    have hs : relevance_score text = 22 := by
      rw [relevance_score_of_counts text 4 1 hcpt hint hpos hneg]
      norm_num
    refine ⟨hs, ?_⟩
    simp only [is_relevant, hs]
    decide
  · intro text hs
    simp only [is_relevant, hs]
    decide

/-- Witness for C3: concrete texts realizing the three cases. -/
theorem C3_witness :
    (relevance_score ("cpt cpt cpt internship").toList = 17 ∧
      is_relevant ("cpt cpt cpt internship").toList = false) ∧
    (relevance_score ("cpt cpt cpt cpt internship").toList = 22 ∧
      is_relevant ("cpt cpt cpt cpt internship").toList = true) ∧
    (relevance_score ("cpt cpt cpt cpt").toList = 20 ∧
      is_relevant ("cpt cpt cpt cpt").toList = true) :=
  ⟨C3_keyword_scoring.1 (("cpt cpt cpt internship").toList)
      (by decide) (by decide) (by decide) (by decide),
   C3_keyword_scoring.2.1 (("cpt cpt cpt cpt internship").toList)
      (by decide) (by decide) (by decide) (by decide),
   by decide,
   C3_keyword_scoring.2.2 (("cpt cpt cpt cpt").toList) (by decide)⟩

/-- C4 counterexample: the empty string is an entry of the allowed list
and a string prefix of the URL path, yet `is_allowed` returns `false`
because the code skips empty prefixes — the claim, which lets *every*
allowed entry win, is false as stated. -/
theorem C4_counterexample :
    (([] : List Char) ∈ [([] : List Char)] ∧
      ([] : List Char) <+: urlPath (("https://example.com/x").toList)) ∧
    is_allowed (("https://example.com/x").toList)
      [("/x").toList] [([] : List Char)] = false := by
  decide

/-- C4 amended: with *nonempty* entries, an allowed prefix match wins
unconditionally, otherwise a nonempty disallowed prefix match rejects,
otherwise the URL is allowed. -/
theorem C4_amended :
    ∀ (url : List Char) (disallowed allowed : List (List Char)),
      ((∃ a ∈ allowed, a ≠ [] ∧ a <+: urlPath url) →
        is_allowed url disallowed allowed = true) ∧
      ((¬ ∃ a ∈ allowed, a ≠ [] ∧ a <+: urlPath url) →
        (∃ d ∈ disallowed, d ≠ [] ∧ d <+: urlPath url) →
        is_allowed url disallowed allowed = false) ∧
      ((¬ ∃ a ∈ allowed, a ≠ [] ∧ a <+: urlPath url) →
        (¬ ∃ d ∈ disallowed, d ≠ [] ∧ d <+: urlPath url) →
        is_allowed url disallowed allowed = true) := by
  intro url disallowed allowed
  refine ⟨?_, ?_, ?_⟩
  · intro h
    obtain ⟨a, ha, hne, hpre⟩ := h
    have hc : (allowed.any fun a => decide (a ≠ [] ∧ a <+: urlPath url)) = true :=
      List.any_eq_true.mpr ⟨a, ha, by simp [hne, hpre]⟩
    simp only [is_allowed]
    rw [if_pos hc]
  · intro hna hd
    obtain ⟨d, hdmem, hdne, hdpre⟩ := hd
    have hc : (allowed.any fun a => decide (a ≠ [] ∧ a <+: urlPath url)) = false := by
      rw [List.any_eq_false]
      intro a ha
      simp only [decide_eq_true_eq]
      intro hcontra
      exact hna ⟨a, ha, hcontra⟩
    have hc2 : (disallowed.any fun d => decide (d ≠ [] ∧ d <+: urlPath url)) = true :=
      List.any_eq_true.mpr ⟨d, hdmem, by simp [hdne, hdpre]⟩
    simp only [is_allowed]
    rw [if_neg (by rw [hc]; simp), if_pos hc2]
  · intro hna hnd
    have hc : (allowed.any fun a => decide (a ≠ [] ∧ a <+: urlPath url)) = false := by
      rw [List.any_eq_false]
      intro a ha
      simp only [decide_eq_true_eq]
      intro hcontra
      exact hna ⟨a, ha, hcontra⟩
    have hc2 : (disallowed.any fun d => decide (d ≠ [] ∧ d <+: urlPath url)) = false := by
      rw [List.any_eq_false]
      intro d hdm
      simp only [decide_eq_true_eq]
      intro hcontra
      exact hnd ⟨d, hdm, hcontra⟩
    simp only [is_allowed]
    rw [if_neg (by rw [hc]; simp), if_neg (by rw [hc2]; simp)]

/-- Witness for C4: allow wins over disallow, a disallowed prefix
rejects, and an unmatched path defaults to allowed. -/
theorem C4_witness :
    is_allowed (("https://a.com/docs/x").toList)
      [("/docs").toList] [("/docs/x").toList] = true ∧
    is_allowed (("https://a.com/docs/y").toList)
      [("/docs").toList] [("/docs/x").toList] = false ∧
    is_allowed (("https://a.com/other").toList)
      [("/docs").toList] [("/docs/x").toList] = true :=
  ⟨(C4_amended _ _ _).1 ⟨("/docs/x").toList, by decide, by decide, by decide⟩,
   (C4_amended _ _ _).2.1 (by decide) ⟨("/docs").toList, by decide, by decide, by decide⟩,
   (C4_amended _ _ _).2.2 (by decide) (by decide)⟩

/-- C9 counterexample: a web document containing the bare word
`advertisement` (without the brackets the code checks for) passes
`validate_content`, so the claim is false as stated. -/
theorem C9_counterexample :
    metaGet advWordDoc "type" "unknown" = "web" ∧
    ("advertisement").toList <:+: advWordDoc.page_content ∧
    validate_content advWordDoc = true := by
  decide

/-- C9 amended: for a web document whose lower-cased stripped content
contains the bracketed marker `[advertisement]` (or `cookie` or
`privacy policy`), `validate_content` returns false. -/
theorem C9_amended :
    ∀ doc : Document, metaGet doc "type" "unknown" = "web" →
      (("[advertisement]").toList <:+: toLowerL (pyStrip doc.page_content) ∨
       ("cookie").toList <:+: toLowerL (pyStrip doc.page_content) ∨
       ("privacy policy").toList <:+: toLowerL (pyStrip doc.page_content)) →
      validate_content doc = false := by
  intro doc htype hmarker
  simp only [validate_content]
  by_cases h1 : pyStrip doc.page_content = [] ∨
      (pyStrip doc.page_content).length < 50 ∨
      ¬ (pyStrip doc.page_content).any Char.isAlpha
  · rw [if_pos h1]
  · have h2 : (boilerplate_terms.any
        fun t => containsL t (toLowerL (pyStrip doc.page_content))) = true := by
      rcases hmarker with h | h | h
      · exact List.any_eq_true.mpr
          ⟨("[advertisement]").toList, by decide, decide_eq_true h⟩
      · exact List.any_eq_true.mpr ⟨("cookie").toList, by decide, decide_eq_true h⟩
      · exact List.any_eq_true.mpr
          ⟨("privacy policy").toList, by decide, decide_eq_true h⟩
    rw [if_neg h1, if_pos ⟨htype, h2⟩]

/-- Witness for C9: a web document with the bracketed marker is rejected. -/
theorem C9_witness :
    metaGet advMarkerDoc "type" "unknown" = "web" ∧
    validate_content advMarkerDoc = false :=
  ⟨by decide, C9_amended advMarkerDoc (by decide) (Or.inl (by decide))⟩

/-- A message whose head character is `R` or `N` is never the duplicate
message, whose head is `D`. -/
theorem ne_dupMsg_of_head (msg query : List Char)
    (h : msg.head? = some 'R' ∨ msg.head? = some 'N') : msg ≠ dupMsg query := by
  intro he
  rw [he] at h
  have hd : (dupMsg query).head? = some 'D' := rfl
  rcases h with h | h <;> rw [hd] at h <;> simp at h

/-- C10: the duplicate check of `validate_results` compares documents
with pydantic structural equality (`r != doc`), so duplicated page
content between structurally equal documents is never reported, and
such a result list can validate successfully. -/
theorem C10_duplicate_check_structural :
    (∀ (results : List Document) (query : List Char),
      (∀ d1 ∈ results, ∀ d2 ∈ results,
        d1.page_content = d2.page_content → d1 = d2) →
      (validate_results results query).2 ≠ dupMsg query) ∧
    validate_results [okDoc, okDoc] (("What is OPT?").toList) =
      (true, ("Results validated successfully").toList) := by
  refine ⟨?_, by decide⟩
  intro results query h
  unfold validate_results
  by_cases hres : results = []
  · rw [if_pos hres]
    exact ne_dupMsg_of_head _ _ (Or.inr rfl)
  · rw [if_neg hres]
    cases hfind : results.findSome? (checkDoc results query) with
    | none =>
      exact ne_dupMsg_of_head _ _ (Or.inl rfl)
    | some msg =>
      show msg ≠ dupMsg query
      obtain ⟨doc, hdocmem, hcd⟩ := List.exists_of_findSome?_eq_some hfind
      have hdup : (results.any
          fun r => decide (r ≠ doc ∧ r.page_content = doc.page_content)) = false := by
        rw [List.any_eq_false]
        intro r hr
        simp only [decide_eq_true_eq]
        rintro ⟨hne, hpc⟩
        exact hne (h r hr doc hdocmem hpc)
      simp only [checkDoc, hdup, Bool.false_eq_true, if_false] at hcd
      split_ifs at hcd with hlen halpha
      · rw [← Option.some.inj hcd]
        exact ne_dupMsg_of_head _ _ (Or.inl rfl)
      · rw [← Option.some.inj hcd]
        exact ne_dupMsg_of_head _ _ (Or.inr rfl)

/-- Witness for C10: two structurally equal valid documents trigger no
duplicate report. -/
theorem C10_witness :
    (validate_results [okDoc, okDoc] (("q").toList)).2 ≠ dupMsg (("q").toList) :=
  C10_duplicate_check_structural.1 [okDoc, okDoc] (("q").toList) (by decide)

/-- C6 counterexample: when the LLM relevance check raises, `get_answer`
returns the relevance-guidance block (with the relevance checker's own
error text), not the fixed generic error message the claim requires for
every exception. -/
theorem C6_counterexample :
    envRelErr.relevance_llm (("zzz").toList) = Except.error () ∧
    get_answer envRelErr (("zzz").toList) ≠ Answer.mk genericErrorMsg [] ∧
    get_answer envRelErr (("zzz").toList) =
      Answer.mk (relevanceBlock
        (("Error analyzing question. Please try again.").toList)) [] :=
  ⟨rfl, by decide, by decide⟩

/-- C6 amended: no exception propagates out of `get_answer`.  An
exception escaping the `try` body (that is, one raised by the QA
chain) yields the fixed generic error message with empty sources; an
exception in the LLM relevance check is caught inside
`_is_relevant_question` and yields the relevance-guidance block
(containing `Error analyzing question. Please try again.`), likewise
with empty sources. -/
theorem C6_amended :
    (∀ (env : QAEnv) (q : List Char) (e : Unit),
        get_answer_body env q = Except.error e →
        get_answer env q = Answer.mk genericErrorMsg []) ∧
    (∀ (env : QAEnv) (q : List Char),
        pyStrip q ≠ [] →
        helpEntries.any (triggered (toLowerL (pyStrip q))) = false →
        env.relevance_llm q = Except.error () →
        get_answer env q =
          Answer.mk (relevanceBlock
            (("Error analyzing question. Please try again.").toList)) []) := by
  constructor
  · intro env q e hbody
    unfold get_answer
    rw [hbody]
  · intro env q hq htr hllm
    have hfind : helpEntries.find? (triggered (toLowerL (pyStrip q))) = none := by
      rw [List.find?_eq_none]
      exact List.any_eq_false.mp htr
    have hrel : is_relevant_question env q =
        (false, ("Error analyzing question. Please try again.").toList) := by
      unfold is_relevant_question
      rw [if_neg (by rw [htr]; simp), hllm]
    simp only [get_answer, get_answer_body]
    rw [if_neg hq, hfind, hrel]
    rfl

/-- Witness for C6: a QA-chain exception yields the generic message; a
relevance-check exception yields the guidance block. -/
theorem C6_witness :
    get_answer envQaErr (("zzz").toList) = Answer.mk genericErrorMsg [] ∧
    get_answer envRelErr (("qqq").toList) =
      Answer.mk (relevanceBlock
        (("Error analyzing question. Please try again.").toList)) [] :=
  ⟨C6_amended.1 envQaErr (("zzz").toList) () rfl,
   C6_amended.2 envRelErr (("qqq").toList) (by decide) (by decide) rfl⟩

/-- Behaviour of the `test_vector_store` query loop over any search
oracle: overall success iff every query validates, and the validated
queries are exactly the passing prefix plus the first failing query. -/
theorem tvsLoop_spec (search : List Char → List Document) :
    ∀ qs : List (List Char),
      ((tvsLoop search qs).1 = true ↔
        ∀ q ∈ qs, (validate_results (search q) q).1 = true) ∧
      (tvsLoop search qs).2 =
        qs.takeWhile (fun q => (validate_results (search q) q).1)
          ++ (qs.dropWhile (fun q => (validate_results (search q) q).1)).take 1 := by
  intro qs
  induction qs with
  | nil => simp [tvsLoop]
  | cons q qs ih =>
    by_cases hq : (validate_results (search q) q).1 = true
    · constructor
      · simp only [tvsLoop, hq, if_true]
        rw [ih.1, List.forall_mem_cons]
        constructor
        · exact fun hall => ⟨hq, hall⟩
        · exact fun hall => hall.2
      · simp only [tvsLoop, hq, if_true]
        simp [List.takeWhile_cons, List.dropWhile_cons, hq, ih.2]
    · have hq' : (validate_results (search q) q).1 = false := by
        cases hb : (validate_results (search q) q).1
        · rfl
        · exact absurd hb hq
      constructor
      · simp [tvsLoop, hq', List.forall_mem_cons]
      · simp [tvsLoop, hq', List.takeWhile_cons, List.dropWhile_cons]

/-- C7 counterexample: with a search oracle returning no results, the
first query fails validation and the run returns immediately — only one
of the fifteen queries is ever checked, so a failure does terminate the
whole run, contrary to the claim. -/
theorem C7_counterexample :
    (test_vector_store (fun _ => [])).1 = false ∧
    (test_vector_store (fun _ => [])).2.length = 1 ∧
    testQueries.length = 15 ∧
    (∀ q ∈ testQueries, (validate_results ([] : List Document) q).1 = false) := by
  decide

/-- C7 amended: inside `validate_results` the first failing check
short-circuits reporting for that query, and at the run level the first
failing query terminates the whole run (the queries after it are not
validated); overall success is reported iff every query passes. -/
theorem C7_amended :
    ∀ search : List Char → List Document,
      ((test_vector_store search).1 = true ↔
        ∀ q ∈ testQueries, (validate_results (search q) q).1 = true) ∧
      (test_vector_store search).2 =
        testQueries.takeWhile (fun q => (validate_results (search q) q).1)
          ++ (testQueries.dropWhile
                (fun q => (validate_results (search q) q).1)).take 1 := by
  intro search
  exact tvsLoop_spec search testQueries

/-- Witness for C7: with a search oracle returning a valid document for
every query, the run succeeds and validates all fifteen queries. -/
theorem C7_witness :
    (test_vector_store (fun _ => [okDoc])).1 = true ∧
    (test_vector_store (fun _ => [okDoc])).2 = testQueries :=
  ⟨(C7_amended (fun _ => [okDoc])).1.mpr (by decide), by decide⟩

/-- One crawl step never removes visited URLs, and changes the relevant
set at most by consing a URL that the step also marks visited. -/
theorem crawl_step_invariants (env : CrawlEnv) (s : CrawlState) :
    ((crawl_step env s).relevant_urls = s.relevant_urls ∨
      ∃ url, (crawl_step env s).relevant_urls = url :: s.relevant_urls ∧
        url ∈ (crawl_step env s).visited) ∧
    (∀ v ∈ s.visited, v ∈ (crawl_step env s).visited) := by
  cases hv : s.to_visit with
  | nil =>
    simp only [crawl_step, hv]
    exact ⟨Or.inl (by simp), fun v hv => hv⟩
  | cons url rest =>
    simp only [crawl_step, hv]
    by_cases h1 : url ∈ s.visited
    · rw [if_pos h1]
      exact ⟨Or.inl (by simp), fun v hv => hv⟩
    · rw [if_neg h1]
      by_cases h2 : is_allowed url env.disallowed env.allowed = true
      · rw [if_neg (by simp [h2])]
        cases hfetch : env.fetch url with
        | none =>
          simp only [hfetch]
          exact ⟨Or.inl (by simp), fun v hv => List.mem_cons_of_mem _ hv⟩
        | some pr =>
          obtain ⟨content, links⟩ := pr
          simp only [hfetch]
          split_ifs with hfound hsave hsave
          · exact ⟨Or.inr ⟨url, rfl, List.mem_cons_self url _⟩,
              fun v hv => List.mem_cons_of_mem _ hv⟩
          · exact ⟨Or.inr ⟨url, rfl, List.mem_cons_self url _⟩,
              fun v hv => List.mem_cons_of_mem _ hv⟩
          · exact ⟨Or.inl (by simp), fun v hv => List.mem_cons_of_mem _ hv⟩
          · exact ⟨Or.inl (by simp), fun v hv => List.mem_cons_of_mem _ hv⟩
      · rw [if_pos (by simp [h2])]
        exact ⟨Or.inl (by simp), fun v hv => hv⟩

/-- The batch counter of any reachable crawl state is at most 9 (it is
reset to 0 whenever it would reach 10). -/
theorem reachable_batch_le (env : CrawlEnv) :
    ∀ s, Reachable env s → s.batch_counter ≤ 9 := by
  intro s h
  induction h with
  | init => simp [initState]
  | @step s₀ hr hne ih =>
    cases hv : s₀.to_visit with
    | nil => simp only [crawl_step, hv]; exact ih
    | cons url rest =>
      simp only [crawl_step, hv]
      by_cases h1 : url ∈ s₀.visited
      · rw [if_pos h1]; exact ih
      · rw [if_neg h1]
        by_cases h2 : is_allowed url env.disallowed env.allowed = true
        · rw [if_neg (by simp [h2])]
          cases hfetch : env.fetch url with
          | none => simp only [hfetch]; exact ih
          | some pr =>
            obtain ⟨content, links⟩ := pr
            simp only [hfetch]
            split_ifs with hfound hsave hsave
            · simp
            · simp only []
              omega
            · simp
            · simp only []
              omega
        · rw [if_pos (by simp [h2])]; exact ih

/-- Checkpoint-file behaviour of one crawl step from a reachable state:
the write log is unchanged exactly when the step did not find a new
relevant URL with the batch counter at 9; and when the log does change,
the step appended one snapshot of the updated state and reset the
counter. -/
theorem crawl_step_writes (env : CrawlEnv) (s : CrawlState)
    (hb : s.batch_counter ≤ 9) :
    ((crawl_step env s).writes = s.writes ↔
      ¬((crawl_step env s).relevant_urls ≠ s.relevant_urls ∧
        s.batch_counter = 9)) ∧
    ((crawl_step env s).writes ≠ s.writes →
      (crawl_step env s).writes = s.writes ++ [snapshot (crawl_step env s)] ∧
      (crawl_step env s).batch_counter = 0) := by
  cases hv : s.to_visit with
  | nil =>
    simp only [crawl_step, hv]
    exact ⟨by simp, fun h => absurd rfl h⟩
  | cons url rest =>
    simp only [crawl_step, hv]
    by_cases h1 : url ∈ s.visited
    · rw [if_pos h1]
      exact ⟨by simp, fun h => absurd rfl h⟩
    · rw [if_neg h1]
      by_cases h2 : is_allowed url env.disallowed env.allowed = true
      · rw [if_neg (by simp [h2])]
        cases hfetch : env.fetch url with
        | none =>
          simp only [hfetch]
          exact ⟨by simp, fun h => absurd rfl h⟩
        | some pr =>
          obtain ⟨content, links⟩ := pr
          simp only [hfetch]
          split_ifs with hfound hsave hsave
          · -- new relevant URL found, counter reached 10: flush
            constructor
            · constructor
              · intro hw
                exact absurd (congrArg List.length hw) (by simp)
              · intro hno
                exfalso
                apply hno
                refine ⟨?_, ?_⟩
                · intro heq
                  exact absurd (congrArg List.length heq) (by simp)
                · omega
            · intro _
              exact ⟨rfl, rfl⟩
          · -- new relevant URL found, counter still below 10
            constructor
            · constructor
              · intro _
                rintro ⟨hrel, hb9⟩
                omega
              · intro _
                rfl
            · intro h
              exact absurd rfl h
          · -- nothing new found: counter unchanged, no flush
            exfalso
            omega
          · constructor
            · constructor
              · intro _
                rintro ⟨hrel, hb9⟩
                exact hrel rfl
              · intro _
                rfl
            · intro h
              exact absurd rfl h
      · rw [if_pos (by simp [h2])]
        exact ⟨by simp, fun h => absurd rfl h⟩

/-- C1 counterexample: in the crawl environment whose seed page links to
the same URL twice, the state after two steps is reachable and has
`https://e.com/b` both in `visited` and still in the frontier — the
claimed disjointness invariant fails. -/
theorem C1_counterexample :
    Reachable envDupLink
      (crawl_step envDupLink (crawl_step envDupLink (initState envDupLink))) ∧
    ("https://e.com/b").toList ∈
      (crawl_step envDupLink (crawl_step envDupLink (initState envDupLink))).visited ∧
    ("https://e.com/b").toList ∈
      (crawl_step envDupLink (crawl_step envDupLink (initState envDupLink))).to_visit :=
  ⟨Reachable.step (Reachable.step Reachable.init (by decide)) (by decide),
   by decide, by decide⟩

/-- C1 amended: in every reachable state of the per-seed crawl loop the
relevant URLs are a subset of the visited URLs; the frontier/visited
disjointness does not hold (a URL enqueued twice stays in the frontier
after being visited), though such URLs are skipped when popped. -/
theorem C1_amended :
    ∀ (env : CrawlEnv) (s : CrawlState), Reachable env s →
      ∀ u ∈ s.relevant_urls, u ∈ s.visited := by
  intro env s h
  induction h with
  | init => intro u hu; exact absurd hu (by simp [initState])
  | @step s₀ hr hne ih =>
    intro u hu
    obtain ⟨hrel, hmono⟩ := crawl_step_invariants env s₀
    rcases hrel with heq | ⟨url, heq, hmem⟩
    · rw [heq] at hu
      exact hmono u (ih u hu)
    · rw [heq] at hu
      rcases List.mem_cons.mp hu with rfl | hu'
      · exact hmem
      · exact hmono u (ih u hu')

/-- Witness for C1: a crawl that found its seed page relevant has the
seed in its visited set. -/
theorem C1_witness :
    ("https://e.com/").toList ∈ (crawl_step envRelPage (initState envRelPage)).visited :=
  C1_amended envRelPage _ (Reachable.step Reachable.init (by decide))
    (("https://e.com/").toList) (by decide)

/-- C8 counterexample: the first crawl step of `envDupLink` processes the
seed URL (the visited set changes) yet writes nothing to the checkpoint
file — the per-URL state update is in memory only, contrary to the
claimed per-URL file persistence. -/
theorem C8_counterexample :
    Reachable envDupLink (crawl_step envDupLink (initState envDupLink)) ∧
    (crawl_step envDupLink (initState envDupLink)).visited ≠
      (initState envDupLink).visited ∧
    (crawl_step envDupLink (initState envDupLink)).writes = [] :=
  ⟨Reachable.step Reachable.init (by decide), by decide, by decide⟩

/-- C8 amended: after processing a URL the per-domain state is updated
in memory, but the checkpoint file is written only when the step found
a new relevant URL with the batch counter at 9 (ten accumulated since
the last flush; the counter then resets to 0), and once more when the
crawl of the seed ends. -/
theorem C8_amended :
    (∀ (env : CrawlEnv) (s : CrawlState), Reachable env s →
      ((crawl_step env s).writes = s.writes ↔
        ¬((crawl_step env s).relevant_urls ≠ s.relevant_urls ∧
          s.batch_counter = 9)) ∧
      ((crawl_step env s).writes ≠ s.writes →
        (crawl_step env s).writes = s.writes ++ [snapshot (crawl_step env s)] ∧
        (crawl_step env s).batch_counter = 0)) ∧
    (∀ s : CrawlState, (crawl_finish s).writes = s.writes ++ [snapshot s]) :=
  ⟨fun env s hr => crawl_step_writes env s (reachable_batch_le env s hr),
   fun _ => rfl⟩

/-- Witness for C8: the first step of `envDupLink` (no new relevant URL)
leaves the checkpoint log unchanged. -/
theorem C8_witness :
    (crawl_step envDupLink (initState envDupLink)).writes =
      (initState envDupLink).writes :=
  ((C8_amended.1 envDupLink (initState envDupLink) Reachable.init).1).mpr
    (by decide)

/-- A prefix of a list is one of its occurrences. -/
theorem occ_of_pre {l₁ l₂ : List Char} (h : l₁ <+: l₂) : l₁ <:+: l₂ := by
  obtain ⟨t, ht⟩ := h
  exact ⟨[], t, by simpa using ht⟩

/-- A suffix of a list is one of its occurrences. -/
theorem occ_of_suf {l₁ l₂ : List Char} (h : l₁ <:+ l₂) : l₁ <:+: l₂ := by
  obtain ⟨t, ht⟩ := h
  exact ⟨t, [], by simpa using ht⟩

/-- An occurrence inside `u ++ v` lies in `u`, lies in `v`, or splits at
the boundary into a nonempty part that is a suffix of `u` and a nonempty
part that is a prefix of `v`. -/
theorem append_occ_cases {pat u v : List Char} (h : pat <:+: u ++ v) :
    pat <:+: u ∨ pat <:+: v ∨
      ∃ i, 0 < i ∧ i < pat.length ∧ pat.take i <:+ u ∧ pat.drop i <+: v := by
  obtain ⟨x, y, hxy⟩ := h
  have hxy' : x ++ (pat ++ y) = u ++ v := by simpa [List.append_assoc] using hxy
  by_cases h1 : u.length ≤ x.length
  · right; left
    have hu : u <+: x := by
      have hx : x <+: u ++ v := ⟨pat ++ y, hxy'⟩
      exact List.prefix_of_prefix_length_le ⟨v, rfl⟩ hx h1
    obtain ⟨x2, hx2⟩ := hu
    refine ⟨x2, y, ?_⟩
    have hcan : u ++ (x2 ++ (pat ++ y)) = u ++ v := by
      rw [← hxy', ← hx2]
      simp [List.append_assoc]
    have hv := List.append_cancel_left hcan
    simpa [List.append_assoc] using hv
  · push_neg at h1
    by_cases h2 : x.length + pat.length ≤ u.length
    · left
      have hxp : (x ++ pat) <+: u := by
        have hpre : (x ++ pat) <+: u ++ v :=
          ⟨y, by simpa [List.append_assoc] using hxy'⟩
        refine List.prefix_of_prefix_length_le hpre ⟨v, rfl⟩ ?_
        simpa [List.length_append] using h2
      obtain ⟨r, hr⟩ := hxp
      exact ⟨x, r, by simpa [List.append_assoc] using hr⟩
    · push_neg at h2
      right; right
      have hklt : u.length - x.length < pat.length := by omega
      have hkle : u.length - x.length ≤ pat.length := le_of_lt hklt
      refine ⟨u.length - x.length, by omega, hklt, ⟨x, ?_⟩, ⟨y, ?_⟩⟩
      · have ht := congrArg (List.take u.length) hxy'
        rw [List.take_append_eq_append_take,
          List.take_of_length_le (le_of_lt h1),
          List.take_append_of_le_length hkle, List.take_left] at ht
        exact ht
      · have hd := congrArg (List.drop u.length) hxy'
        rw [List.drop_append_eq_append_drop,
          List.drop_eq_nil_iff.mpr (le_of_lt h1),
          List.drop_append_of_le_length hkle, List.drop_left] at hd
        simpa using hd

/-- Replacing a pattern that does not occur is the identity. -/
theorem replaceGo_eq_of_no_occ (pat rep : List Char) :
    ∀ (fuel : Nat) (s : List Char), ¬ pat <:+: s → s.length ≤ fuel →
      replaceGo pat rep fuel s = s := by
  intro fuel
  induction fuel with
  | zero =>
    intro s hno hlen
    cases s with
    | nil => rfl
    | cons c rest => simp at hlen
  | succ fuel ih =>
    intro s hno hlen
    cases s with
    | nil => rfl
    | cons c rest =>
      have hg : ¬(pat ≠ [] ∧ pat <+: (c :: rest)) := by
        rintro ⟨hne, hpre⟩
        exact hno (occ_of_pre hpre)
      simp only [replaceGo]
      rw [if_neg hg]
      have hrest : ¬ pat <:+: rest := fun hocc => hno (List.infix_cons hocc)
      have hlen' : rest.length ≤ fuel := by
        simp only [List.length_cons] at hlen
        omega
      rw [ih rest hrest hlen']

/-- If a nonempty proper tail part of `pat` is a prefix of the output of
a replacement, it was already a prefix of the input: under `noSpanR`
the part cannot begin inside an inserted replacement string. -/
theorem replaceGo_pre_tailpart (pat' rep' pat : List Char)
    (hC : noSpanR pat rep') (hD : ¬ rep' <:+: pat) :
    ∀ (fuel : Nat) (u : List Char) (i : Nat), 0 < i → i < pat.length →
      u.length ≤ fuel → pat.drop i <+: replaceGo pat' rep' fuel u →
      pat.drop i <+: u := by
  intro fuel
  induction fuel with
  | zero =>
    intro u i hi0 hilen hlen hpre
    cases u with
    | nil => exact hpre
    | cons c rest => simp at hlen
  | succ fuel ih =>
    intro u i hi0 hilen hlen hpre
    cases u with
    | nil => exact hpre
    | cons c rest =>
      have hlenrest : rest.length ≤ fuel := by
        simp only [List.length_cons] at hlen
        omega
      by_cases hg : pat' ≠ [] ∧ pat' <+: (c :: rest)
      · exfalso
        rw [show replaceGo pat' rep' (fuel + 1) (c :: rest) =
            rep' ++ replaceGo pat' rep' fuel ((c :: rest).drop pat'.length) from by
          simp only [replaceGo]; rw [if_pos hg]] at hpre
        by_cases hlen2 : (pat.drop i).length ≤ rep'.length
        · have hqr : pat.drop i <+: rep' :=
            List.prefix_of_prefix_length_le hpre (List.prefix_append _ _) hlen2
          exact hC i hilen hi0 hqr
        · push_neg at hlen2
          have hrp : rep' <+: pat.drop i :=
            List.prefix_of_prefix_length_le (List.prefix_append _ _) hpre
              (le_of_lt hlen2)
          have hqpat : pat.drop i <:+ pat := List.drop_suffix i pat
          exact hD (List.IsInfix.trans (occ_of_pre hrp) (occ_of_suf hqpat))
      · rw [show replaceGo pat' rep' (fuel + 1) (c :: rest) =
            c :: replaceGo pat' rep' fuel rest from by
          simp only [replaceGo]; rw [if_neg hg]] at hpre
        have hqne : pat.drop i ≠ [] := by
          intro hq
          rw [List.drop_eq_nil_iff] at hq
          omega
        obtain ⟨q0, q', hq⟩ := List.exists_cons_of_ne_nil hqne
        rw [hq, List.cons_prefix_cons] at hpre
        obtain ⟨hq0, hq'⟩ := hpre
        have hq'eq : q' = pat.drop (i + 1) := by
          have htl := List.tail_drop pat i
          rw [hq] at htl
          simpa using htl
        by_cases hq'nil : q' = []
        · rw [hq, hq'nil, hq0]
          exact ⟨rest, rfl⟩
        · have hi1 : i + 1 < pat.length := by
            by_contra hcon
            push_neg at hcon
            apply hq'nil
            rw [hq'eq, List.drop_eq_nil_iff]
            omega
          have hq'' : pat.drop (i + 1) <+: replaceGo pat' rep' fuel rest := by
            rw [← hq'eq]
            exact hq'
          have hres := ih rest (i + 1) (by omega) hi1 hlenrest hq''
          rw [hq, hq0]
          refine (List.cons_prefix_cons).mpr ⟨rfl, ?_⟩
          rw [hq'eq]
          exact hres

/-- Replacing `pat` by `rep` leaves no occurrence of `pat` in the
output, provided `rep` contains no occurrence of `pat`, no occurrence
can span the boundaries of an inserted `rep` (`noSpanL`, `noSpanR`),
and `rep` does not occur inside `pat`. -/
theorem replaceGo_no_occ_self (pat rep : List Char) (hp : pat ≠ [])
    (hA : ¬ pat <:+: rep) (hB : noSpanL pat rep) (hC : noSpanR pat rep)
    (hD : ¬ rep <:+: pat) :
    ∀ (fuel : Nat) (s : List Char), s.length ≤ fuel →
      ¬ pat <:+: replaceGo pat rep fuel s := by
  intro fuel
  induction fuel with
  | zero =>
    intro s hlen hocc
    cases s with
    | nil => exact hp (by simpa [replaceGo] using hocc)
    | cons c rest => simp at hlen
  | succ fuel ih =>
    intro s hlen hocc
    cases s with
    | nil => exact hp (by simpa [replaceGo] using hocc)
    | cons c rest =>
      have hlenrest : rest.length ≤ fuel := by
        simp only [List.length_cons] at hlen
        omega
      by_cases hg : pat ≠ [] ∧ pat <+: (c :: rest)
      · rw [show replaceGo pat rep (fuel + 1) (c :: rest) =
            rep ++ replaceGo pat rep fuel ((c :: rest).drop pat.length) from by
          simp only [replaceGo]; rw [if_pos hg]] at hocc
        rcases append_occ_cases hocc with h1 | h2 | ⟨i, hi0, hilen, htk, hdp⟩
        · exact hA h1
        · have hlen2 : ((c :: rest).drop pat.length).length ≤ fuel := by
            simp only [List.length_drop, List.length_cons]
            have hpl : 0 < pat.length := List.length_pos.mpr hp
            omega
          exact ih ((c :: rest).drop pat.length) hlen2 h2
        · exact hB i hilen hi0 htk
      · rw [show replaceGo pat rep (fuel + 1) (c :: rest) =
            c :: replaceGo pat rep fuel rest from by
          simp only [replaceGo]; rw [if_neg hg]] at hocc
        rcases List.infix_cons_iff.mp hocc with hpre | hocc'
        · obtain ⟨p0, pt, hpat⟩ := List.exists_cons_of_ne_nil hp
          subst hpat
          rw [List.cons_prefix_cons] at hpre
          obtain ⟨hp0, hpt⟩ := hpre
          by_cases hptnil : pt = []
          · apply hg
            refine ⟨hp, ?_⟩
            rw [hptnil, hp0]
            exact ⟨rest, rfl⟩
          · have h1len : 1 < (p0 :: pt).length := by
              simp only [List.length_cons]
              have hpl : 0 < pt.length := List.length_pos.mpr hptnil
              omega
            have hptpre : (p0 :: pt).drop 1 <+:
                replaceGo (p0 :: pt) rep fuel rest := hpt
            have hrest := replaceGo_pre_tailpart (p0 :: pt) rep (p0 :: pt) hC hD
              fuel rest 1 (by omega) h1len hlenrest hptpre
            apply hg
            exact ⟨hp, (List.cons_prefix_cons).mpr ⟨hp0, hrest⟩⟩
        · exact ih rest hlenrest hocc'

/-- A replacement of `pat'` by `rep'` creates no new occurrence of a
pattern `pat` that did not occur in the input, under the span side
conditions relating `pat` and `rep'`. -/
theorem replaceGo_no_occ (pat' rep' pat : List Char) (hp' : pat' ≠ [])
    (hA : ¬ pat <:+: rep') (hB : noSpanL pat rep') (hC : noSpanR pat rep')
    (hD : ¬ rep' <:+: pat) :
    ∀ (fuel : Nat) (s : List Char), s.length ≤ fuel → ¬ pat <:+: s →
      ¬ pat <:+: replaceGo pat' rep' fuel s := by
  intro fuel
  induction fuel with
  | zero =>
    intro s hlen hs hocc
    cases s with
    | nil => exact hs hocc
    | cons c rest => simp at hlen
  | succ fuel ih =>
    intro s hlen hs hocc
    cases s with
    | nil => exact hs hocc
    | cons c rest =>
      have hlenrest : rest.length ≤ fuel := by
        simp only [List.length_cons] at hlen
        omega
      have hsrest : ¬ pat <:+: rest := fun h => hs (List.infix_cons h)
      have hpne : pat ≠ [] := by
        intro h
        apply hs
        rw [h]
        simp
      by_cases hg : pat' ≠ [] ∧ pat' <+: (c :: rest)
      · rw [show replaceGo pat' rep' (fuel + 1) (c :: rest) =
            rep' ++ replaceGo pat' rep' fuel ((c :: rest).drop pat'.length) from by
          simp only [replaceGo]; rw [if_pos hg]] at hocc
        rcases append_occ_cases hocc with h1 | h2 | ⟨i, hi0, hilen, htk, hdp⟩
        · exact hA h1
        · have hlen2 : ((c :: rest).drop pat'.length).length ≤ fuel := by
            simp only [List.length_drop, List.length_cons]
            have hpl : 0 < pat'.length := List.length_pos.mpr hp'
            omega
          have hs2 : ¬ pat <:+: (c :: rest).drop pat'.length := by
            intro hcon
            exact hs (List.IsInfix.trans hcon (occ_of_suf (List.drop_suffix _ _)))
          exact ih _ hlen2 hs2 h2
        · exact hB i hilen hi0 htk
      · rw [show replaceGo pat' rep' (fuel + 1) (c :: rest) =
            c :: replaceGo pat' rep' fuel rest from by
          simp only [replaceGo]; rw [if_neg hg]] at hocc
        rcases List.infix_cons_iff.mp hocc with hpre | hocc'
        · obtain ⟨p0, pt, hpat⟩ := List.exists_cons_of_ne_nil hpne
          subst hpat
          rw [List.cons_prefix_cons] at hpre
          obtain ⟨hp0, hpt⟩ := hpre
          by_cases hptnil : pt = []
          · apply hs
            apply occ_of_pre
            rw [hptnil, hp0]
            exact ⟨rest, rfl⟩
          · have h1len : 1 < (p0 :: pt).length := by
              simp only [List.length_cons]
              have hpl : 0 < pt.length := List.length_pos.mpr hptnil
              omega
            have hptpre : (p0 :: pt).drop 1 <+:
                replaceGo pat' rep' fuel rest := hpt
            have hrest := replaceGo_pre_tailpart pat' rep' (p0 :: pt) hC hD
              fuel rest 1 (by omega) h1len hlenrest hptpre
            apply hs
            apply occ_of_pre
            exact (List.cons_prefix_cons).mpr ⟨hp0, hrest⟩
        · exact ih rest hlenrest hsrest hocc'

/-- The `replaceL` form of `replaceGo_eq_of_no_occ`. -/
theorem replaceL_eq_of_no_occ (pat rep s : List Char) (h : ¬ pat <:+: s) :
    replaceL pat rep s = s :=
  replaceGo_eq_of_no_occ pat rep s.length s h le_rfl

/-- The composite `preprocess_text`, written as the four nested
replacements in table order. -/
theorem preprocess_text_eq (t : List Char) :
    preprocess_text t =
      replaceL (("OPT ").toList) (("Optional Practical Training (OPT) ").toList)
        (replaceL (("F visa").toList) (("F-1 visa").toList)
          (replaceL (("F Students").toList) (("F-1 Students").toList)
            (replaceL (("F student").toList) (("F-1 student").toList) t))) := rfl

/-- The output of `preprocess_text` contains no occurrence of the first
rule's pattern `F student`. -/
theorem preprocess_no_occ_p1 (t : List Char) :
    ¬ ("F student").toList <:+: preprocess_text t := by
  rw [preprocess_text_eq]
  have h1 : ¬ ("F student").toList <:+:
      replaceL (("F student").toList) (("F-1 student").toList) t :=
    replaceGo_no_occ_self (("F student").toList) (("F-1 student").toList)
      (by decide) (by decide) (by decide) (by decide) (by decide) _ _ le_rfl
  have h2 := replaceGo_no_occ (("F Students").toList) (("F-1 Students").toList)
    (("F student").toList) (by decide) (by decide) (by decide) (by decide)
    (by decide) _ _ le_rfl h1
  have h3 := replaceGo_no_occ (("F visa").toList) (("F-1 visa").toList)
    (("F student").toList) (by decide) (by decide) (by decide) (by decide)
    (by decide) _ _ le_rfl h2
  exact replaceGo_no_occ (("OPT ").toList)
    (("Optional Practical Training (OPT) ").toList) (("F student").toList)
    (by decide) (by decide) (by decide) (by decide) (by decide) _ _ le_rfl h3

/-- The output of `preprocess_text` contains no occurrence of the second
rule's pattern `F Students`. -/
theorem preprocess_no_occ_p2 (t : List Char) :
    ¬ ("F Students").toList <:+: preprocess_text t := by
  rw [preprocess_text_eq]
  have h2 : ¬ ("F Students").toList <:+:
      replaceL (("F Students").toList) (("F-1 Students").toList)
        (replaceL (("F student").toList) (("F-1 student").toList) t) :=
    replaceGo_no_occ_self (("F Students").toList) (("F-1 Students").toList)
      (by decide) (by decide) (by decide) (by decide) (by decide) _ _ le_rfl
  have h3 := replaceGo_no_occ (("F visa").toList) (("F-1 visa").toList)
    (("F Students").toList) (by decide) (by decide) (by decide) (by decide)
    (by decide) _ _ le_rfl h2
  exact replaceGo_no_occ (("OPT ").toList)
    (("Optional Practical Training (OPT) ").toList) (("F Students").toList)
    (by decide) (by decide) (by decide) (by decide) (by decide) _ _ le_rfl h3

/-- The output of `preprocess_text` contains no occurrence of the third
rule's pattern `F visa`. -/
theorem preprocess_no_occ_p3 (t : List Char) :
    ¬ ("F visa").toList <:+: preprocess_text t := by
  rw [preprocess_text_eq]
  have h3 : ¬ ("F visa").toList <:+:
      replaceL (("F visa").toList) (("F-1 visa").toList)
        (replaceL (("F Students").toList) (("F-1 Students").toList)
          (replaceL (("F student").toList) (("F-1 student").toList) t)) :=
    replaceGo_no_occ_self (("F visa").toList) (("F-1 visa").toList)
      (by decide) (by decide) (by decide) (by decide) (by decide) _ _ le_rfl
  exact replaceGo_no_occ (("OPT ").toList)
    (("Optional Practical Training (OPT) ").toList) (("F visa").toList)
    (by decide) (by decide) (by decide) (by decide) (by decide) _ _ le_rfl h3

/-- The output of `preprocess_text` contains no occurrence of the fourth
rule's pattern `OPT ` (every remaining `OPT` is followed by `)`). -/
theorem preprocess_no_occ_p4 (t : List Char) :
    ¬ ("OPT ").toList <:+: preprocess_text t := by
  rw [preprocess_text_eq]
  exact replaceGo_no_occ_self (("OPT ").toList)
    (("Optional Practical Training (OPT) ").toList)
    (by decide) (by decide) (by decide) (by decide) (by decide) _ _ le_rfl

/-- C5: `preprocess_text` is idempotent — its output contains no
occurrence of any of the four replacement patterns, so a second
application changes nothing; on the spec's example input the output
contains `F-1 student` and the `OPT` occurrence is expanded per the
rule table. -/
theorem C5_preprocess_idempotent :
    (∀ t : List Char, preprocess_text (preprocess_text t) = preprocess_text t) ∧
    ("F-1 student").toList <:+:
      preprocess_text (("F student faces OPT deadlines").toList) ∧
    preprocess_text (("F student faces OPT deadlines").toList) =
      ("F-1 student faces Optional Practical Training (OPT) deadlines").toList := by
  refine ⟨?_, by decide, by decide⟩
  intro t
  conv_lhs => rw [preprocess_text_eq]
  rw [replaceL_eq_of_no_occ _ _ _ (preprocess_no_occ_p1 t),
    replaceL_eq_of_no_occ _ _ _ (preprocess_no_occ_p2 t),
    replaceL_eq_of_no_occ _ _ _ (preprocess_no_occ_p3 t),
    replaceL_eq_of_no_occ _ _ _ (preprocess_no_occ_p4 t)]

end F1rstAid
